import Mathlib

/-!
Shallow embedding of `src/index.js` (MG6 MQTT → MongoDB backend).
The file contains two near-identical revisions; per the specification the
second, more defensive revision (a per-key throttle map, guarded JSON parse,
interval validation, graceful shutdown) is authoritative, and all line
numbers below refer to it.

Modelling conventions:
* JS `Map<string, number>` (`lastSavedByKey`) is an insertion-ordered
  association list `List (String × Int)` with `mapGet` / `mapSet` mirroring
  `Map.prototype.get` / `Map.prototype.set`.
* Timestamps (`Date.now()`) and the throttle interval are `Int`
  (milliseconds); JS number comparisons on these values are exact.
* `JSON.parse` is an external runtime facility: the handler is parametric in
  a decoder `List Char → Option α` (`none` models a thrown `SyntaxError`).
  Raw payload bytes are `List Char` (JS string = sequence of UTF-16 units),
  so `raw.slice(0, 300)` becomes `List.take 300`.
* `collection.insertOne` is external I/O: its success/failure is the
  boolean parameter `insertOk`.
-/

namespace MG6

/-- JS `Map.prototype.get` on an insertion-ordered association list. -/
def mapGet (st : List (String × Int)) (k : String) : Option Int :=
  match st with
  | [] => none
  | (k', v) :: rest => if k' = k then some v else mapGet rest k

/-- JS `Map.prototype.set`: update in place if the key exists, else append. -/
def mapSet (st : List (String × Int)) (k : String) (v : Int) : List (String × Int) :=
  match st with
  | [] => [(k, v)]
  | (k', v') :: rest => if k' = k then (k', v) :: rest else (k', v') :: mapSet rest k v

/-- Terminal outcome of the `client.on("message")` handler (src lines
240-279) for one inbound message. -/
inductive Outcome where
  | throttled      -- early `return` at line 248
  | malformed      -- `catch` of `JSON.parse` at lines 255-263
  | persisted      -- `insertOne` resolved, line 275 ack log
  | persistFailed  -- `insertOne` rejected, caught at lines 276-278
deriving DecidableEq, Repr

/-- The document built at src lines 268-272 and passed to `insertOne`. -/
structure IngestedRecord (α : Type) where
  topic : String
  payload : α
  receivedAt : Int
deriving DecidableEq, Repr

/-- Result of the synchronous segment of the message handler: everything
from the gate check (line 246) through the commit (line 266) and document
construction (lines 268-272), i.e. all code before the first `await`. -/
inductive SyncResult (α : Type) where
  | rejected                         -- throttled, no state change
  | badPayload (excerpt : List Char) -- invalid JSON, excerpt `raw.slice(0,300)` logged
  | accepted (doc : IngestedRecord α)
deriving DecidableEq, Repr

/-- Synchronous segment of the handler (src lines 243-272): read the
throttle key's last-accepted time (`|| 0` for an absent key), reject when
`now - last < minIntervalMs`, otherwise parse; on parse failure log a
300-unit excerpt and stop; on success commit the throttle timestamp
(line 266) and build the document. Returns the updated map and the
segment's result. -/
def syncPhase {α : Type} (decode : List Char → Option α) (minIntervalMs : Int)
    (st : List (String × Int)) (topic : String) (raw : List Char) (now : Int) :
    List (String × Int) × SyncResult α :=
  let throttleKey := topic
  let last := (mapGet st throttleKey).getD 0
  if now - last < minIntervalMs then
    (st, SyncResult.rejected)
  else
    match decode raw with
    | none => (st, SyncResult.badPayload (raw.take 300))
    | some payload =>
      (mapSet st throttleKey now,
       SyncResult.accepted { topic := topic, payload := payload, receivedAt := now })

/-- Observable result of handling one message to completion. -/
structure MsgResult (α : Type) where
  newState : List (String × Int)
  outcome : Outcome
  excerptLogged : Option (List Char)     -- the `Raw:` excerpt of line 260, if logged
  persistedDoc : Option (IngestedRecord α) -- the document durably stored, if any
deriving DecidableEq, Repr

/-- The whole `client.on("message")` handler (src lines 240-279): the
synchronous segment followed by the awaited `insertOne` (line 274), whose
failure is caught at lines 276-278 with only a log — the throttle map is
not touched after the commit. -/
def handleMessage {α : Type} (decode : List Char → Option α) (minIntervalMs : Int)
    (st : List (String × Int)) (topic : String) (raw : List Char) (now : Int)
    (insertOk : Bool) : MsgResult α :=
  match syncPhase decode minIntervalMs st topic raw now with
  | (st', SyncResult.rejected) =>
    { newState := st', outcome := Outcome.throttled,
      excerptLogged := none, persistedDoc := none }
  | (st', SyncResult.badPayload e) =>
    { newState := st', outcome := Outcome.malformed,
      excerptLogged := some e, persistedDoc := none }
  | (st', SyncResult.accepted doc) =>
    if insertOk then
      { newState := st', outcome := Outcome.persisted,
        excerptLogged := none, persistedDoc := some doc }
    else
      { newState := st', outcome := Outcome.persistFailed,
        excerptLogged := none, persistedDoc := none }

/-! Basic lemmas about the map operations. -/

theorem mapGet_mapSet_self (st : List (String × Int)) (k : String) (v : Int) :
    mapGet (mapSet st k v) k = some v := by
  induction st with
  | nil => simp [mapSet, mapGet]
  | cons hd tl ih =>
    obtain ⟨k', v'⟩ := hd
    by_cases h : k' = k
    · simp [mapSet, mapGet, h]
    · simp [mapSet, mapGet, h, ih]

theorem mapGet_mapSet_ne (st : List (String × Int)) (k k₂ : String) (v : Int)
    (h : k₂ ≠ k) : mapGet (mapSet st k v) k₂ = mapGet st k₂ := by
  have hne : ¬ k = k₂ := fun hk => h hk.symm
  induction st with
  | nil => simp [mapSet, mapGet, hne]
  | cons hd tl ih =>
    obtain ⟨k', v'⟩ := hd
    by_cases hk : k' = k
    · subst hk
      simp [mapSet, mapGet, hne]
    · by_cases hk2 : k' = k₂ <;> simp [mapSet, mapGet, hk, hk2, ih, h]

/-- Exhaustive characterization of the synchronous handler segment: it
either rejects (gate closed, map untouched), drops a malformed payload
(gate open, decode failed, map untouched, 300-unit excerpt), or accepts
(gate open, decode succeeded, timestamp committed, document built). -/
theorem syncPhase_spec {α : Type} (decode : List Char → Option α) (minIntervalMs : Int)
    (st : List (String × Int)) (k : String) (raw : List Char) (now : Int) :
    (now - (mapGet st k).getD 0 < minIntervalMs ∧
       syncPhase decode minIntervalMs st k raw now = (st, SyncResult.rejected)) ∨
    (¬ (now - (mapGet st k).getD 0 < minIntervalMs) ∧ decode raw = none ∧
       syncPhase decode minIntervalMs st k raw now
         = (st, SyncResult.badPayload (raw.take 300))) ∨
    (¬ (now - (mapGet st k).getD 0 < minIntervalMs) ∧ ∃ p, decode raw = some p ∧
       syncPhase decode minIntervalMs st k raw now
         = (mapSet st k now,
            SyncResult.accepted { topic := k, payload := p, receivedAt := now })) := by
  by_cases hg : now - (mapGet st k).getD 0 < minIntervalMs
  · exact Or.inl ⟨hg, by simp [syncPhase, hg]⟩
  · cases hd : decode raw with
    | none => exact Or.inr (Or.inl ⟨hg, rfl, by simp [syncPhase, hg, hd]⟩)
    | some p => exact Or.inr (Or.inr ⟨hg, p, rfl, by simp [syncPhase, hg, hd]⟩)

theorem newState_of_accepted {α : Type} (decode : List Char → Option α)
    (minIntervalMs : Int) (st : List (String × Int)) (k : String) (raw : List Char)
    (now : Int) (ok : Bool)
    (hacc : (handleMessage decode minIntervalMs st k raw now ok).outcome = Outcome.persisted ∨
            (handleMessage decode minIntervalMs st k raw now ok).outcome = Outcome.persistFailed) :
    (handleMessage decode minIntervalMs st k raw now ok).newState = mapSet st k now := by
  rcases syncPhase_spec decode minIntervalMs st k raw now with ⟨_, hs⟩ | ⟨_, _, hs⟩ | ⟨_, p, _, hs⟩ <;>
    simp [handleMessage, hs] at hacc ⊢
  cases ok <;> simp

/-- C1: after a message for key k is accepted and committed at time t1, a
message for k at a later time t2 is throttled exactly when
`t2 - t1 < minIntervalMs`; when `minIntervalMs ≤ t2 - t1` it passes the
gate, and with `minIntervalMs = 0` every later message passes the gate. -/
theorem gate_window_after_accept {α : Type} (decode : List Char → Option α)
    (minIntervalMs : Int) (st0 : List (String × Int)) (k : String)
    (raw1 raw2 : List Char) (t1 t2 : Int) (ok1 ok2 : Bool)
    (h12 : t1 < t2)
    (hacc : (handleMessage decode minIntervalMs st0 k raw1 t1 ok1).outcome = Outcome.persisted ∨
            (handleMessage decode minIntervalMs st0 k raw1 t1 ok1).outcome = Outcome.persistFailed) :
    (t2 - t1 < minIntervalMs →
       (handleMessage decode minIntervalMs
          (handleMessage decode minIntervalMs st0 k raw1 t1 ok1).newState
          k raw2 t2 ok2).outcome = Outcome.throttled) ∧
    (minIntervalMs ≤ t2 - t1 →
       (handleMessage decode minIntervalMs
          (handleMessage decode minIntervalMs st0 k raw1 t1 ok1).newState
          k raw2 t2 ok2).outcome ≠ Outcome.throttled) ∧
    (minIntervalMs = 0 →
       (handleMessage decode minIntervalMs
          (handleMessage decode minIntervalMs st0 k raw1 t1 ok1).newState
          k raw2 t2 ok2).outcome ≠ Outcome.throttled) := by
  have hst1 : (handleMessage decode minIntervalMs st0 k raw1 t1 ok1).newState
      = mapSet st0 k t1 :=
    newState_of_accepted decode minIntervalMs st0 k raw1 t1 ok1 hacc
  have hlast : mapGet (mapSet st0 k t1) k = some t1 := mapGet_mapSet_self st0 k t1
  refine ⟨?_, ?_, ?_⟩
  · intro hlt
    rcases syncPhase_spec decode minIntervalMs (mapSet st0 k t1) k raw2 t2 with
      ⟨_, hs⟩ | ⟨hg, _, _⟩ | ⟨hg, _, _, _⟩
    · rw [hst1]
      simp [handleMessage, hs]
    · exact absurd (by simpa [hlast] using hlt) hg
    · exact absurd (by simpa [hlast] using hlt) hg
  · intro hge
    rcases syncPhase_spec decode minIntervalMs (mapSet st0 k t1) k raw2 t2 with
      ⟨hg, _⟩ | ⟨_, _, hs⟩ | ⟨_, p, _, hs⟩
    · rw [hlast] at hg
      simp only [Option.getD_some] at hg
      omega
    · rw [hst1]
      simp [handleMessage, hs]
    · rw [hst1]
      cases ok2 <;> simp [handleMessage, hs]
  · intro h0
    rcases syncPhase_spec decode minIntervalMs (mapSet st0 k t1) k raw2 t2 with
      ⟨hg, _⟩ | ⟨_, _, hs⟩ | ⟨_, p, _, hs⟩
    · rw [hlast] at hg
      simp only [Option.getD_some] at hg
      omega
    · rw [hst1]
      simp [handleMessage, hs]
    · rw [hst1]
      cases ok2 <;> simp [handleMessage, hs]

/-- C1 witness: with a 60 ms interval, a message committed at t=100 throttles
a message at t=130 (inside the window). -/
theorem gate_window_after_accept_witness :
    (100 : Int) < 130 ∧
    (handleMessage (fun _ => some (0 : Int)) 60 [] "sensor/1" [] 100 true).outcome
        = Outcome.persisted ∧
    (handleMessage (fun _ => some (0 : Int)) 60
        (handleMessage (fun _ => some (0 : Int)) 60 [] "sensor/1" [] 100 true).newState
        "sensor/1" [] 130 true).outcome = Outcome.throttled :=
  ⟨by decide, by decide,
   (gate_window_after_accept (fun _ => some (0 : Int)) 60 [] "sensor/1" [] [] 100 130
     true true (by decide) (Or.inl (by decide))).1 (by decide)⟩

/-- C2: the throttle commit is part of the synchronous segment that runs
before the insert is issued — the final map always equals the map produced
by the pre-write phase, is independent of the write's success, and when the
insert fails (outcome persistFailed, the logged error of src lines 276-278)
the committed timestamp for the key is still in place. -/
theorem commit_before_write_no_rollback {α : Type} (decode : List Char → Option α)
    (minIntervalMs : Int) (st : List (String × Int)) (k : String) (raw : List Char)
    (now : Int) :
    (∀ ok : Bool, (handleMessage decode minIntervalMs st k raw now ok).newState
        = (syncPhase decode minIntervalMs st k raw now).1) ∧
    ((handleMessage decode minIntervalMs st k raw now false).newState
        = (handleMessage decode minIntervalMs st k raw now true).newState) ∧
    ((handleMessage decode minIntervalMs st k raw now false).outcome = Outcome.persistFailed →
        mapGet (handleMessage decode minIntervalMs st k raw now false).newState k
          = some now) := by
  rcases syncPhase_spec decode minIntervalMs st k raw now with
    ⟨_, hs⟩ | ⟨_, _, hs⟩ | ⟨_, p, _, hs⟩
  · simp [handleMessage, hs]
  · simp [handleMessage, hs]
  · refine ⟨fun ok => ?_, ?_, fun _ => ?_⟩
    · cases ok <;> simp [handleMessage, hs]
    · simp [handleMessage, hs]
    · simp [handleMessage, hs, mapGet_mapSet_self]

/-- C2 witness: concrete accepted message whose insert fails; the state
equals the pre-write state and keeps the commit. -/
theorem commit_before_write_no_rollback_witness :
    (handleMessage (fun _ => some (0 : Int)) 60 [] "sensor/3" [] 100 false).newState
        = (syncPhase (fun _ => some (0 : Int)) 60 [] "sensor/3" [] 100).1 ∧
    (handleMessage (fun _ => some (0 : Int)) 60 [] "sensor/3" [] 100 false).newState
        = (handleMessage (fun _ => some (0 : Int)) 60 [] "sensor/3" [] 100 true).newState ∧
    mapGet (handleMessage (fun _ => some (0 : Int)) 60 [] "sensor/3" [] 100 false).newState
        "sensor/3" = some 100 :=
  ⟨(commit_before_write_no_rollback (fun _ => some (0 : Int)) 60 [] "sensor/3" [] 100).1 false,
   (commit_before_write_no_rollback (fun _ => some (0 : Int)) 60 [] "sensor/3" [] 100).2.1,
   (commit_before_write_no_rollback (fun _ => some (0 : Int)) 60 [] "sensor/3" [] 100).2.2
     (by decide)⟩

/-- C3 counterexample: with an empty throttle map (first message ever for
the key), interval 100 ms and clock reading 50, the very first message is
throttled — absence of the key is treated as last-accepted 0 (src line 247
`lastSavedByKey.get(throttleKey) || 0`), not as minus infinity, so the first
message is NOT accepted regardless of the clock value. -/
theorem first_message_rejected_at_small_clock :
    (handleMessage (fun _ => some (0 : Int)) 100 [] "sensor/1" [] 50 true).outcome
        = Outcome.throttled ∧
    (handleMessage (fun _ => some (0 : Int)) 100 [] "sensor/1" [] 50 true).outcome
        ≠ Outcome.persisted := by
  decide

/-- C3 amended: absence of a key is treated as `lastAccepted = 0`, so the
first message for a key is throttled exactly when `now < minIntervalMs`;
whenever the clock reads at least `minIntervalMs` (always true for
epoch-millisecond clocks and sane intervals) the first message passes. -/
theorem first_message_gate {α : Type} (decode : List Char → Option α)
    (minIntervalMs : Int) (st : List (String × Int)) (k : String) (raw : List Char)
    (now : Int) (ok : Bool) (habs : mapGet st k = none) :
    ((handleMessage decode minIntervalMs st k raw now ok).outcome = Outcome.throttled
        ↔ now < minIntervalMs) := by
  rcases syncPhase_spec decode minIntervalMs st k raw now with
    ⟨hg, hs⟩ | ⟨hg, _, hs⟩ | ⟨hg, p, _, hs⟩
  · rw [habs] at hg
    simp only [Option.getD_none, Int.sub_zero] at hg
    simp [handleMessage, hs, hg]
  · rw [habs] at hg
    simp only [Option.getD_none, Int.sub_zero] at hg
    simp [handleMessage, hs, hg]
  · rw [habs] at hg
    simp only [Option.getD_none, Int.sub_zero] at hg
    cases ok <;> simp [handleMessage, hs, hg]

/-- C3 amended witness: first message at now=150 with interval 100 passes;
the iff instantiated concretely. -/
theorem first_message_gate_witness :
    (mapGet [] "sensor/1" = none) ∧
    ((handleMessage (fun _ => some (0 : Int)) 100 [] "sensor/1" [] 150 true).outcome
        = Outcome.throttled ↔ (150 : Int) < 100) :=
  ⟨by decide, first_message_gate (fun _ => some (0 : Int)) 100 [] "sensor/1" [] 150 true (by decide)⟩

/-- C4 counterexample: the gate is queried BEFORE the payload is decoded.
With the key inside its throttle window and a payload that fails to decode,
the handler reports throttled, not dropped-malformed — so a decode failure
does not terminate processing first, contradicting the claimed
decode-then-gate ordering. -/
theorem gate_checked_before_decode :
    ((fun _ : List Char => (none : Option Int)) [] = none) ∧
    (handleMessage (fun _ => (none : Option Int)) 100 [("t", 5)] "t" [] 10 true).outcome
        = Outcome.throttled ∧
    (handleMessage (fun _ => (none : Option Int)) 100 [("t", 5)] "t" [] 10 true).outcome
        ≠ Outcome.malformed := by
  decide

/-- C4 amended: the pipeline queries the rate gate first — a rejection
terminates with outcome throttled and no side effects — and only after the
gate passes does it decode; a decode failure then terminates with outcome
dropped-malformed, with no commit and nothing persisted. -/
theorem gate_then_decode_order {α : Type} (decode : List Char → Option α)
    (minIntervalMs : Int) (st : List (String × Int)) (k : String) (raw : List Char)
    (now : Int) (ok : Bool) :
    (now - (mapGet st k).getD 0 < minIntervalMs →
       (handleMessage decode minIntervalMs st k raw now ok)
         = { newState := st, outcome := Outcome.throttled,
             excerptLogged := none, persistedDoc := none }) ∧
    (¬ (now - (mapGet st k).getD 0 < minIntervalMs) → decode raw = none →
       (handleMessage decode minIntervalMs st k raw now ok).outcome = Outcome.malformed ∧
       (handleMessage decode minIntervalMs st k raw now ok).newState = st ∧
       (handleMessage decode minIntervalMs st k raw now ok).persistedDoc = none) := by
  constructor
  · intro hg
    simp [handleMessage, syncPhase, hg]
  · intro hg hd
    rcases syncPhase_spec decode minIntervalMs st k raw now with
      ⟨hg', _⟩ | ⟨_, _, hs⟩ | ⟨_, p, hp, _⟩
    · exact absurd hg' hg
    · simp [handleMessage, hs]
    · rw [hd] at hp
      exact absurd hp (by simp)

/-- C4 amended witness: a message inside its throttle window is dropped as
throttled with no side effects, and a gate-open malformed message is
dropped as malformed with no commit. -/
theorem gate_then_decode_order_witness :
    (handleMessage (fun _ => (none : Option Int)) 100 [("t", 5)] "t" [] 10 true)
        = { newState := [("t", 5)], outcome := Outcome.throttled,
            excerptLogged := none, persistedDoc := none } ∧
    (handleMessage (fun _ => (none : Option Int)) 100 [("t", 5)] "t" [] 200 true).outcome
        = Outcome.malformed ∧
    (handleMessage (fun _ => (none : Option Int)) 100 [("t", 5)] "t" [] 200 true).newState
        = [("t", 5)] :=
  ⟨(gate_then_decode_order (fun _ => (none : Option Int)) 100 [("t", 5)] "t" [] 10 true).1
      (by decide),
   ((gate_then_decode_order (fun _ => (none : Option Int)) 100 [("t", 5)] "t" [] 200 true).2
      (by decide) (by decide)).1,
   ((gate_then_decode_order (fun _ => (none : Option Int)) 100 [("t", 5)] "t" [] 200 true).2
      (by decide) (by decide)).2.1⟩

/-- C5: a payload that fails to decode never mutates throttle state (the
final map is exactly the incoming map, so every key is untouched), persists
nothing, logs — whenever the gate let the message through to the parse — an
excerpt of the raw input of length at most 300 units, and the handler
returns normally so every subsequent message is processed exactly as if the
malformed one had never arrived. -/
theorem malformed_payload_isolated {α : Type} (decode : List Char → Option α)
    (minIntervalMs : Int) (st : List (String × Int)) (k : String) (raw : List Char)
    (now : Int) (ok : Bool) (hdec : decode raw = none) :
    (handleMessage decode minIntervalMs st k raw now ok).newState = st ∧
    (handleMessage decode minIntervalMs st k raw now ok).persistedDoc = none ∧
    (¬ (now - (mapGet st k).getD 0 < minIntervalMs) →
       (handleMessage decode minIntervalMs st k raw now ok).outcome = Outcome.malformed ∧
       (handleMessage decode minIntervalMs st k raw now ok).excerptLogged
         = some (raw.take 300)) ∧
    (∀ e, (handleMessage decode minIntervalMs st k raw now ok).excerptLogged = some e →
       e.length ≤ 300) ∧
    (∀ (k' : String) (raw' : List Char) (now' : Int) (ok' : Bool),
       handleMessage decode minIntervalMs
           (handleMessage decode minIntervalMs st k raw now ok).newState k' raw' now' ok'
         = handleMessage decode minIntervalMs st k' raw' now' ok') := by
  rcases syncPhase_spec decode minIntervalMs st k raw now with
    ⟨hg, hs⟩ | ⟨hg, _, hs⟩ | ⟨_, p, hp, _⟩
  · refine ⟨by simp [handleMessage, hs], by simp [handleMessage, hs],
      fun h => absurd hg h, ?_, fun k' raw' now' ok' => by simp [handleMessage, hs]⟩
    intro e he
    simp [handleMessage, hs] at he
  · refine ⟨by simp [handleMessage, hs], by simp [handleMessage, hs],
      fun _ => by simp [handleMessage, hs], ?_,
      fun k' raw' now' ok' => by simp [handleMessage, hs]⟩
    intro e he
    simp only [handleMessage, hs, Option.some.injEq] at he
    subst he
    calc (raw.take 300).length = min 300 raw.length := List.length_take 300 raw
      _ ≤ 300 := min_le_left _ _
  · rw [hdec] at hp
    exact absurd hp (by simp)

/-- C5 witness: a concrete malformed message with the gate open. -/
theorem malformed_payload_isolated_witness :
    (handleMessage (fun _ => (none : Option Int)) 60 [] "sensor/2" ['n', 'o'] 100 true).newState
        = [] ∧
    (handleMessage (fun _ => (none : Option Int)) 60 [] "sensor/2" ['n', 'o'] 100 true).outcome
        = Outcome.malformed ∧
    (handleMessage (fun _ => (none : Option Int)) 60 [] "sensor/2" ['n', 'o'] 100 true).excerptLogged
        = some (['n', 'o'].take 300) :=
  ⟨(malformed_payload_isolated (fun _ => (none : Option Int)) 60 [] "sensor/2" ['n', 'o']
      100 true (by decide)).1,
   ((malformed_payload_isolated (fun _ => (none : Option Int)) 60 [] "sensor/2" ['n', 'o']
      100 true (by decide)).2.2.1 (by decide)).1,
   ((malformed_payload_isolated (fun _ => (none : Option Int)) 60 [] "sensor/2" ['n', 'o']
      100 true (by decide)).2.2.1 (by decide)).2⟩

/-- C6: handling a message whose throttle key is k never changes the stored
last-accepted timestamp of any other key k₂ — whatever the outcome
(throttled, malformed, persisted, or persist-failed). -/
theorem no_cross_key_interference {α : Type} (decode : List Char → Option α)
    (minIntervalMs : Int) (st : List (String × Int)) (k : String) (raw : List Char)
    (now : Int) (ok : Bool) (k₂ : String) (hne : k₂ ≠ k) :
    mapGet (handleMessage decode minIntervalMs st k raw now ok).newState k₂
      = mapGet st k₂ := by
  rcases syncPhase_spec decode minIntervalMs st k raw now with
    ⟨_, hs⟩ | ⟨_, _, hs⟩ | ⟨_, p, _, hs⟩
  · simp [handleMessage, hs]
  · simp [handleMessage, hs]
  · cases ok <;> simp [handleMessage, hs, mapGet_mapSet_ne st k k₂ now hne]

/-- C6 witness: an accepted, committed message for "a" leaves the stored
timestamp of "b" unchanged. -/
theorem no_cross_key_interference_witness :
    mapGet (handleMessage (fun _ => some (0 : Int)) 60 [("b", 7)] "a" [] 100 true).newState "b"
      = mapGet [("b", 7)] "b" :=
  no_cross_key_interference (fun _ => some (0 : Int)) 60 [("b", 7)] "a" [] 100 true "b"
    (by decide)

/-- C7: a throttled (rejected) message leaves the map exactly as it was, so
any message handled right after the rejection behaves exactly as if the
rejected message had never arrived. -/
theorem reject_is_stateless {α : Type} (decode : List Char → Option α)
    (minIntervalMs : Int) (st : List (String × Int)) (k : String) (raw : List Char)
    (now : Int) (ok : Bool)
    (hrej : (handleMessage decode minIntervalMs st k raw now ok).outcome = Outcome.throttled) :
    (handleMessage decode minIntervalMs st k raw now ok).newState = st ∧
    (∀ (k' : String) (raw' : List Char) (now' : Int) (ok' : Bool),
       handleMessage decode minIntervalMs
           (handleMessage decode minIntervalMs st k raw now ok).newState k' raw' now' ok'
         = handleMessage decode minIntervalMs st k' raw' now' ok') := by
  rcases syncPhase_spec decode minIntervalMs st k raw now with
    ⟨_, hs⟩ | ⟨_, _, hs⟩ | ⟨_, p, _, hs⟩
  · exact ⟨by simp [handleMessage, hs], fun k' raw' now' ok' => by simp [handleMessage, hs]⟩
  · simp [handleMessage, hs] at hrej
  · cases ok <;> simp [handleMessage, hs] at hrej

/-- C7 witness: a concrete rejection, state equal before and after. -/
theorem reject_is_stateless_witness :
    (handleMessage (fun _ => some (0 : Int)) 100 [("t", 5)] "t" [] 10 true).outcome
        = Outcome.throttled ∧
    (handleMessage (fun _ => some (0 : Int)) 100 [("t", 5)] "t" [] 10 true).newState
        = [("t", 5)] :=
  ⟨by decide,
   (reject_is_stateless (fun _ => some (0 : Int)) 100 [("t", 5)] "t" [] 10 true (by decide)).1⟩

/-! Startup, configuration validation and shutdown (src lines 126-163,
289-312). The environment is a partial map `String → Option String`
(`process.env`); `Number(...)` applied to the interval string is modelled by
a parameter `parseNumber : String → Option ℚ`, where `none` stands for a
non-finite result (`Number.isFinite` false). `connectMongo` / the MQTT
subscribe are external I/O; the success of the sink connection is the
boolean `sinkConnects`. -/

/-- The `requiredVars` list of src lines 139-148. -/
def requiredVars : List String :=
  ["MQTT_URL", "MQTT_USERNAME", "MQTT_PASSWORD", "MQTT_TOPIC",
   "MONGODB_URI", "DB_NAME", "COLLECTION_NAME", "MIN_SAVE_INTERVAL_SEC"]

/-- JS truthiness test `!process.env[v]` (src line 151): true for an absent
variable and for the empty string. -/
def envBlank : Option String → Bool
  | none => true
  | some s => s.isEmpty

/-- How the process run ends, distinguishing how far startup got. -/
inductive BootOutcome where
  | configExit (varName : String) -- exit 1 at src line 153, name logged at 152
  | intervalExit                  -- exit 1 at src line 162
  | sinkExit                      -- exit 1 at src line 310 (connectMongo rejected)
  | running (minIntervalMs : ℚ)   -- sink connected, MQTT connect + subscribe issued
deriving DecidableEq, Repr

/-- Exit status of the process for a given boot outcome: `none` while still
running, `some 1` on every startup failure. -/
def exitCodeOf : BootOutcome → Option Nat
  | BootOutcome.running _ => none
  | _ => some 1

/-- Whether any connection (sink or transport) was attempted before the end
state: config validation runs at module top level, before `connectMongo`. -/
def connectionAttempted : BootOutcome → Bool
  | BootOutcome.configExit _ => false
  | BootOutcome.intervalExit => false
  | _ => true

/-- Whether the MQTT subscription was issued: only in the running state —
`connectMQTT()` is called strictly after `await connectMongo()` succeeds
(src lines 306-307). -/
def subscriptionIssued : BootOutcome → Bool
  | BootOutcome.running _ => true
  | _ => false

/-- Startup sequence of src lines 150-163 and 303-312: scan `requiredVars`
for the first missing-or-empty variable (exit 1, name logged); then parse
and validate `MIN_SAVE_INTERVAL_SEC` (exit 1 when non-finite or negative);
then connect the sink (exit 1 on failure); only then connect MQTT and
subscribe. -/
def boot (env : String → Option String) (parseNumber : String → Option ℚ)
    (sinkConnects : Bool) : BootOutcome :=
  match requiredVars.find? (fun v => envBlank (env v)) with
  | some v => BootOutcome.configExit v
  | none =>
    match (env "MIN_SAVE_INTERVAL_SEC").bind parseNumber with
    | none => BootOutcome.intervalExit
    | some sec =>
      if sec < 0 then BootOutcome.intervalExit
      else if sinkConnects then BootOutcome.running (sec * 1000)
      else BootOutcome.sinkExit

/-- Signal handler `shutdown` (src lines 289-300): the Mongo close error, if
any, is caught and logged, and the process exits 0 unconditionally. -/
def shutdownExitCode (_closeFails : Bool) : Nat := 0

theorem find?_congr_on {β : Type} (l : List β) (p q : β → Bool)
    (h : ∀ a ∈ l, p a = q a) : l.find? p = l.find? q := by
  induction l with
  | nil => rfl
  | cons hd tl ih =>
    rw [List.find?_cons, List.find?_cons, h hd (List.mem_cons_self hd tl)]
    cases q hd
    · exact ih fun a ha => h a (List.mem_cons_of_mem hd ha)
    · rfl

/-- C8: the shutdown path exits 0 even when the sink close fails; a missing
or empty required variable makes boot exit 1 before any connection attempt;
an invalid interval value makes boot exit 1 before any connection attempt;
and when a configuration that would boot fine meets a failing sink, the
process exits 1 without the subscription ever being issued. -/
theorem exit_codes_spec (env : String → Option String)
    (parseNumber : String → Option ℚ) (sinkConnects closeFails : Bool)
    (v : String) (q : ℚ) :
    (shutdownExitCode closeFails = 0) ∧
    (v ∈ requiredVars → envBlank (env v) = true →
       exitCodeOf (boot env parseNumber sinkConnects) = some 1 ∧
       connectionAttempted (boot env parseNumber sinkConnects) = false) ∧
    ((env "MIN_SAVE_INTERVAL_SEC").bind parseNumber = none →
       exitCodeOf (boot env parseNumber sinkConnects) = some 1 ∧
       connectionAttempted (boot env parseNumber sinkConnects) = false) ∧
    ((env "MIN_SAVE_INTERVAL_SEC").bind parseNumber = some q → q < 0 →
       exitCodeOf (boot env parseNumber sinkConnects) = some 1 ∧
       connectionAttempted (boot env parseNumber sinkConnects) = false) ∧
    (boot env parseNumber true = BootOutcome.running q →
       boot env parseNumber false = BootOutcome.sinkExit ∧
       exitCodeOf (boot env parseNumber false) = some 1 ∧
       subscriptionIssued (boot env parseNumber false) = false) := by
  refine ⟨rfl, ?_, ?_, ?_, ?_⟩
  · intro hv hblank
    have hfind : (requiredVars.find? (fun w => envBlank (env w))).isSome := by
      rw [List.find?_isSome]
      exact ⟨v, hv, hblank⟩
    obtain ⟨w, hw⟩ := Option.isSome_iff_exists.mp hfind
    simp [boot, hw, exitCodeOf, connectionAttempted]
  · intro hparse
    cases hfind : requiredVars.find? (fun w => envBlank (env w)) with
    | some w => simp [boot, hfind, exitCodeOf, connectionAttempted]
    | none => simp [boot, hfind, hparse, exitCodeOf, connectionAttempted]
  · intro hparse hneg
    cases hfind : requiredVars.find? (fun w => envBlank (env w)) with
    | some w => simp [boot, hfind, exitCodeOf, connectionAttempted]
    | none => simp [boot, hfind, hparse, hneg, exitCodeOf, connectionAttempted]
  · intro hrun
    cases hfind : requiredVars.find? (fun w => envBlank (env w)) with
    | some w => simp [boot, hfind] at hrun
    | none =>
      cases hparse : (env "MIN_SAVE_INTERVAL_SEC").bind parseNumber with
      | none => simp [boot, hfind, hparse] at hrun
      | some sec =>
        by_cases hneg : sec < 0
        · simp [boot, hfind, hparse, hneg] at hrun
        · simp [boot, hfind, hparse, hneg] at hrun ⊢
          simp [exitCodeOf, subscriptionIssued]

/-- C8 witness: a full concrete environment; with the sink failing the boot
ends in sinkExit with exit code 1 and no subscription, and shutdown exits 0
even when the close fails. -/
theorem exit_codes_spec_witness :
    shutdownExitCode true = 0 ∧
    (boot (fun _ => some "x") (fun _ => some 5) false = BootOutcome.sinkExit ∧
     exitCodeOf (boot (fun _ => some "x") (fun _ => some 5) false) = some 1 ∧
     subscriptionIssued (boot (fun _ => some "x") (fun _ => some 5) false) = false) :=
  ⟨(exit_codes_spec (fun _ => some "x") (fun _ => some 5) false true "MQTT_URL" (5 * 1000)).1,
   (exit_codes_spec (fun _ => some "x") (fun _ => some 5) false true "MQTT_URL" (5 * 1000)).2.2.2.2
     (by rfl)⟩

/-! Concurrency model of the message handler. The JS runtime is a
single-threaded event loop with run-to-completion semantics: an `async`
listener can only be interleaved with other work at `await` points. In the
handler (src lines 240-279) the only `await` is `collection.insertOne`
(line 274), so the whole segment from the gate check (line 246) through the
commit (line 266) is one atomic block, while the write settles
later, interleaved arbitrarily with other handlers. The MQTT client emits
`message` events sequentially, so the synchronous segments start in arrival
order. Each in-flight message is therefore in one of three phases. -/

/-- One inbound message, as delivered to the handler. -/
structure MsgInput (α : Type) where
  topic : String
  raw : List Char
  now : Int
deriving DecidableEq, Repr

/-- Progress of one handler invocation: not yet run; synchronous segment
(check → parse → commit → build doc) done with the insert possibly in
flight; fully settled. -/
inductive HandlerPhase where
  | pending
  | syncDone
  | retired
deriving DecidableEq, Repr

/-- Shared state of the process: the throttle map plus the phase of each
in-flight handler. -/
structure ConcState where
  map : List (String × Int)
  phases : List HandlerPhase
deriving DecidableEq, Repr

/-- Interleaved execution: either the next pending handler (in arrival
order) runs its synchronous segment atomically — performing the gate check
and, on acceptance, the commit in the same step, with no other handler
running in between — or some in-flight awaited insert settles, which does
not touch the throttle map. -/
inductive ConcStep {α : Type} (decode : List Char → Option α) (minIntervalMs : Int)
    (tasks : List (MsgInput α)) : ConcState → ConcState → Prop where
  | runSync (s : ConcState) (i : Nat) (t : MsgInput α)
      (ht : tasks[i]? = some t)
      (hp : s.phases[i]? = some HandlerPhase.pending)
      (hord : ∀ j, j < i → s.phases[j]? ≠ some HandlerPhase.pending) :
      ConcStep decode minIntervalMs tasks s
        { map := (syncPhase decode minIntervalMs s.map t.topic t.raw t.now).1,
          phases := s.phases.set i HandlerPhase.syncDone }
  | settleWrite (s : ConcState) (i : Nat)
      (hp : s.phases[i]? = some HandlerPhase.syncDone) :
      ConcStep decode minIntervalMs tasks s
        { map := s.map, phases := s.phases.set i HandlerPhase.retired }

/-- Initial state: the incoming throttle map, no handler started. -/
def initState (st0 : List (String × Int)) (n : Nat) : ConcState :=
  { map := st0, phases := List.replicate n HandlerPhase.pending }

/-- A state the concurrent system can reach from the initial state. -/
def Reachable {α : Type} (decode : List Char → Option α) (minIntervalMs : Int)
    (tasks : List (MsgInput α)) (st0 : List (String × Int)) (s : ConcState) : Prop :=
  Relation.ReflTransGen (ConcStep decode minIntervalMs tasks)
    (initState st0 tasks.length) s

/-- Fully serial reference execution: the synchronous segments of the
handlers, one after the other in arrival order. -/
def serialRun {α : Type} (decode : List Char → Option α) (minIntervalMs : Int)
    (st0 : List (String × Int)) : List (MsgInput α) → List (String × Int)
  | [] => st0
  | t :: ts =>
    serialRun decode minIntervalMs
      (syncPhase decode minIntervalMs st0 t.topic t.raw t.now).1 ts

theorem serialRun_append {α : Type} (decode : List Char → Option α)
    (minIntervalMs : Int) (l₁ l₂ : List (MsgInput α)) (st0 : List (String × Int)) :
    serialRun decode minIntervalMs st0 (l₁ ++ l₂)
      = serialRun decode minIntervalMs (serialRun decode minIntervalMs st0 l₁) l₂ := by
  induction l₁ generalizing st0 with
  | nil => rfl
  | cons t ts ih => simp [serialRun, ih]

/-- Invariant of the concurrent system: the handlers that have run form a
prefix of the arrival order, and the throttle map is exactly the serial-run
map of that prefix. -/
def ConcInv {α : Type} (decode : List Char → Option α) (minIntervalMs : Int)
    (tasks : List (MsgInput α)) (st0 : List (String × Int)) (s : ConcState) : Prop :=
  s.phases.length = tasks.length ∧
  ∃ k, k ≤ tasks.length ∧
    (∀ j, j < k → s.phases[j]? ≠ some HandlerPhase.pending) ∧
    (∀ j, k ≤ j → j < tasks.length → s.phases[j]? = some HandlerPhase.pending) ∧
    s.map = serialRun decode minIntervalMs st0 (tasks.take k)

theorem concInv_init {α : Type} (decode : List Char → Option α) (minIntervalMs : Int)
    (tasks : List (MsgInput α)) (st0 : List (String × Int)) :
    ConcInv decode minIntervalMs tasks st0 (initState st0 tasks.length) := by
  refine ⟨List.length_replicate _ _, 0, Nat.zero_le _, fun j hj => absurd hj (Nat.not_lt_zero j),
    fun j _ hj => ?_, rfl⟩
  simp [initState, List.getElem?_replicate, hj]

theorem concInv_step {α : Type} (decode : List Char → Option α) (minIntervalMs : Int)
    (tasks : List (MsgInput α)) (st0 : List (String × Int)) (s s' : ConcState)
    (hinv : ConcInv decode minIntervalMs tasks st0 s)
    (hstep : ConcStep decode minIntervalMs tasks s s') :
    ConcInv decode minIntervalMs tasks st0 s' := by
  obtain ⟨hlen, k, hk, hdone, hpend, hmap⟩ := hinv
  cases hstep with
  | runSync i t ht hp hord =>
    have hi_tasks : i < tasks.length := by
      by_contra hc
      rw [List.getElem?_eq_none (Nat.le_of_not_lt hc)] at ht
      exact Option.noConfusion ht
    have hi_ph : i < s.phases.length := hlen ▸ hi_tasks
    have hik : i = k := by
      rcases Nat.lt_trichotomy i k with h | h | h
      · exact absurd hp (hdone i h)
      · exact h
      · exact absurd (hpend k (Nat.le_refl k) (Nat.lt_trans h hi_tasks)) (hord k h)
    subst hik
    refine ⟨by simpa [List.length_set] using hlen, i + 1, hi_tasks, ?_, ?_, ?_⟩
    · intro j hj
      rcases Nat.lt_or_ge j i with hji | hji
      · rw [List.getElem?_set_ne (Nat.ne_of_lt' hji)]
        exact hdone j hji
      · have hji' : j = i := Nat.le_antisymm (Nat.lt_succ_iff.mp hj) hji
        subst hji'
        rw [List.getElem?_set_eq_of_lt _ hi_ph]
        simp
    · intro j hj hjlen
      rw [List.getElem?_set_ne (Nat.ne_of_lt hj)]
      exact hpend j (Nat.le_of_lt hj) hjlen
    · show (syncPhase decode minIntervalMs s.map t.topic t.raw t.now).1
        = serialRun decode minIntervalMs st0 (tasks.take (i + 1))
      rw [List.take_succ, ht]
      rw [serialRun_append, ← hmap]
      rfl
  | settleWrite i hp =>
    have hi_ph : i < s.phases.length := by
      by_contra hc
      rw [List.getElem?_eq_none (Nat.le_of_not_lt hc)] at hp
      exact Option.noConfusion hp
    have hik : i < k := by
      by_contra hc
      have := hpend i (Nat.le_of_not_lt hc) (hlen ▸ hi_ph)
      rw [hp] at this
      exact Option.noConfusion this.symm (fun h => HandlerPhase.noConfusion h)
    refine ⟨by simpa [List.length_set] using hlen, k, hk, ?_, ?_, hmap⟩
    · intro j hj
      by_cases hij : i = j
      · rw [← hij, List.getElem?_set_eq_of_lt _ hi_ph]
        simp
      · rw [List.getElem?_set_ne hij]
        exact hdone j hj
    · intro j hj hjlen
      rw [List.getElem?_set_ne (Nat.ne_of_lt (Nat.lt_of_lt_of_le hik hj))]
      exact hpend j hj hjlen

/-- C9: in every reachable state of every interleaving, the handlers whose
gate-check-then-commit segment has run form a prefix of the arrival order,
none of them is left between check and commit (the two happen in the same
atomic step, as in the source there is no `await` between lines 246 and
266), and the shared throttle map is exactly the one produced by running
those segments strictly serially — so two concurrent messages for one key
can never both pass the check before either commits. -/
theorem gate_check_commit_serialized {α : Type} (decode : List Char → Option α)
    (minIntervalMs : Int) (tasks : List (MsgInput α)) (st0 : List (String × Int))
    (s : ConcState) (hreach : Reachable decode minIntervalMs tasks st0 s) :
    ∃ k, k ≤ tasks.length ∧
      (∀ j, j < k → s.phases[j]? ≠ some HandlerPhase.pending) ∧
      (∀ j, k ≤ j → j < tasks.length → s.phases[j]? = some HandlerPhase.pending) ∧
      s.map = serialRun decode minIntervalMs st0 (tasks.take k) := by
  have hinv : ConcInv decode minIntervalMs tasks st0 s := by
    induction hreach with
    | refl => exact concInv_init decode minIntervalMs tasks st0
    | tail hab hbc ih => exact concInv_step decode minIntervalMs tasks st0 _ _ ih hbc
  exact hinv.2

/-- C9 witness: the initial state with one in-flight message is reachable;
the serialization invariant holds there with k = 0. -/
theorem gate_check_commit_serialized_witness :
    ∃ k, k ≤ [(⟨"a", [], 100⟩ : MsgInput Int)].length ∧
      (∀ j, j < k →
        (initState [] 1).phases[j]? ≠ some HandlerPhase.pending) ∧
      (∀ j, k ≤ j → j < [(⟨"a", [], 100⟩ : MsgInput Int)].length →
        (initState [] 1).phases[j]? = some HandlerPhase.pending) ∧
      (initState [] 1).map
        = serialRun (fun _ => some (0 : Int)) 60 [] ([(⟨"a", [], 100⟩ : MsgInput Int)].take k) :=
  gate_check_commit_serialized (fun _ => some (0 : Int)) 60 [⟨"a", [], 100⟩] []
    (initState [] 1) Relation.ReflTransGen.refl

/-- C10: a required variable that is present but empty is treated exactly
like a missing one — `!process.env[v]` (src line 151) is true for both —
so the boot outcome is literally unchanged when the empty value is replaced
by absence; the process exits 1 without attempting any connection, and when
the empty variable is the only blank one its name is the one logged. -/
theorem empty_env_var_like_missing (env : String → Option String)
    (parseNumber : String → Option ℚ) (sinkConnects : Bool) (v : String)
    (hv : v ∈ requiredVars) (hempty : env v = some "") :
    boot (fun w => if w = v then none else env w) parseNumber sinkConnects
        = boot env parseNumber sinkConnects ∧
    exitCodeOf (boot env parseNumber sinkConnects) = some 1 ∧
    connectionAttempted (boot env parseNumber sinkConnects) = false ∧
    ((∀ w, w ∈ requiredVars → w ≠ v → envBlank (env w) = false) →
       boot env parseNumber sinkConnects = BootOutcome.configExit v) := by
  have hblank : envBlank (env v) = true := by rw [hempty]; rfl
  have hfind : (requiredVars.find? (fun w => envBlank (env w))).isSome := by
    rw [List.find?_isSome]
    exact ⟨v, hv, hblank⟩
  obtain ⟨w, hw⟩ := Option.isSome_iff_exists.mp hfind
  have hcongr : requiredVars.find? (fun u => envBlank ((fun u' => if u' = v then none else env u') u))
      = requiredVars.find? (fun u => envBlank (env u)) := by
    refine find?_congr_on requiredVars _ _ fun a _ => ?_
    by_cases hav : a = v
    · subst hav
      show envBlank (if a = a then none else env a) = envBlank (env a)
      rw [if_pos rfl, hempty]
      rfl
    · show envBlank (if a = v then none else env a) = envBlank (env a)
      rw [if_neg hav]
  refine ⟨?_, ?_, ?_, ?_⟩
  · show boot _ parseNumber sinkConnects = _
    unfold boot
    rw [hcongr, hw]
  · simp [boot, hw, exitCodeOf]
  · simp [boot, hw, connectionAttempted]
  · intro honly
    have hpw : envBlank (env w) = true := by simpa using List.find?_some hw
    have hwmem : w ∈ requiredVars := List.mem_of_find?_eq_some hw
    have hwv : w = v := by
      by_contra hne
      rw [honly w hwmem hne] at hpw
      exact Bool.noConfusion hpw
    subst hwv
    simp [boot, hw]

/-- C10 witness: an environment where exactly `DB_NAME` is the empty
string; removing it entirely changes nothing, and the boot exits 1 naming
`DB_NAME`, with no connection attempted. -/
theorem empty_env_var_like_missing_witness :
    boot (fun w => if w = "DB_NAME" then none
                   else if w = "DB_NAME" then some "" else some "x")
        (fun _ => some 5) true
      = boot (fun w => if w = "DB_NAME" then some "" else some "x") (fun _ => some 5) true ∧
    exitCodeOf (boot (fun w => if w = "DB_NAME" then some "" else some "x")
        (fun _ => some 5) true) = some 1 ∧
    connectionAttempted (boot (fun w => if w = "DB_NAME" then some "" else some "x")
        (fun _ => some 5) true) = false ∧
    boot (fun w => if w = "DB_NAME" then some "" else some "x") (fun _ => some 5) true
      = BootOutcome.configExit "DB_NAME" :=
  ⟨(empty_env_var_like_missing (fun w => if w = "DB_NAME" then some "" else some "x")
      (fun _ => some 5) true "DB_NAME" (by decide) (by decide)).1,
   (empty_env_var_like_missing (fun w => if w = "DB_NAME" then some "" else some "x")
      (fun _ => some 5) true "DB_NAME" (by decide) (by decide)).2.1,
   (empty_env_var_like_missing (fun w => if w = "DB_NAME" then some "" else some "x")
      (fun _ => some 5) true "DB_NAME" (by decide) (by decide)).2.2.1,
   (empty_env_var_like_missing (fun w => if w = "DB_NAME" then some "" else some "x")
      (fun _ => some 5) true "DB_NAME" (by decide) (by decide)).2.2.2 (by decide)⟩

end MG6
